import Mathlib

/-!
Shallow embedding of the `template_tree` Ansible action plugin
(`template_tree.py`).  The plugin reconciles a destination directory tree
with one or more merged local source trees: it plans a list of entries to
create (files and directories mapped to destination paths), a list of
remote entries to delete, and then executes deletes followed by creates.

External collaborators (the filesystem walk performed by the
`community.general.filetree` lookup, the remote `find` listing, the
template renderer, the file reader, and the modules that execute delete
and create operations) are modelled as environment parameters, while the
decision logic of the plugin itself is translated function by function
from the source.
-/

namespace TemplateTree

/-- Model of `pathlib.PurePath` (POSIX flavour): an absolute flag plus the
list of parts.  `PurePath` parsing drops empty components and single dots
and keeps `..` components; equality compares the anchor and the parts. -/
structure PPath where
  isAbs : Bool
  parts : List String
deriving DecidableEq, Repr

/-- Splitting a string at every occurrence of a separator character,
keeping empty pieces, as `str.split(sep)` does in Python (and as
`String.splitOn` does for a one-character separator); implemented by
structural recursion over the character list so that proofs can
evaluate it. -/
def splitChar (c : Char) (s : String) : List String :=
  (s.data.foldr
    (fun ch acc =>
      if ch = c then [] :: acc
      else
        match acc with
        | [] => [[ch]]
        | h :: t => (ch :: h) :: t)
    [[]]).map String.mk

/-- Structurally recursive model of `str.startswith` /
`String.startsWith`. -/
def strStartsWith (s pre : String) : Bool :=
  pre.data.isPrefixOf s.data

/-- Structurally recursive model of `str.endswith` /
`String.endsWith`. -/
def strEndsWith (s post : String) : Bool :=
  post.data.reverse.isPrefixOf s.data.reverse

/-- Structurally recursive model of `String.dropRight` (used for the
`destination_path[:-3]` template-extension strip). -/
def strDropRight (s : String) (n : Nat) : String :=
  String.mk (s.data.take (s.data.length - n))

/-- Joining string pieces with a separator (`sep.join(comps)`). -/
def joinSep (sep : String) : List String → String
  | [] => ""
  | [x] => x
  | x :: xs => x ++ sep ++ joinSep sep xs

/-- The separator repeated `n` times, as `sep * initial_slashes`. -/
def repeatSep : Nat → String
  | 0 => ""
  | n + 1 => "/" ++ repeatSep n

/-- Model of the `PurePath(s)` constructor on a string. -/
def parsePath (s : String) : PPath :=
  { isAbs := strStartsWith s "/"
  , parts := (splitChar '/' s).filter (fun c => c != "" && c != ".") }

/-- Model of `PurePath.relative_to`: succeeds when the anchors agree and
the parts of `other` are a leading run of the parts of `p`; the failure
case models the `ValueError` that `relative_to` raises. -/
def relativeTo (p other : PPath) : Option PPath :=
  if p.isAbs = other.isAbs ∧ other.parts.isPrefixOf p.parts then
    some { isAbs := false, parts := p.parts.drop other.parts.length }
  else none

/-- Model of `PurePath.is_relative_to`. -/
def isRelativeTo (p other : PPath) : Bool :=
  (relativeTo p other).isSome

/-- Model of `os.path.join` (POSIX, two arguments). -/
def pjoin (a b : String) : String :=
  if strStartsWith b "/" then b
  else if a = "" ∨ strEndsWith a "/" then a ++ b
  else a ++ "/" ++ b

/-- Model of `os.path.basename` (POSIX): the substring after the last
separator. -/
def basename (p : String) : String :=
  ((splitChar '/' p).getLast?).getD ""

/-- Strips all trailing separators, as `str.rstrip(sep)` does inside
`os.path.dirname`. -/
def stripTrailingSeps (s : String) : String :=
  String.mk ((s.data.reverse.dropWhile (fun c => c = '/')).reverse)

/-- Model of `os.path.dirname` (POSIX). -/
def dirname (p : String) : String :=
  let comps := splitChar '/' p
  if comps.length ≤ 1 then ""
  else
    let head := joinSep "/" comps.dropLast
    if head.data.all (fun c => c = '/') then head ++ "/"
    else stripTrailingSeps head

/-- Model of `os.path.normpath` (POSIX): collapse separators, drop `.`
components, resolve `..` components lexically. -/
def normpath (p : String) : String :=
  if p = "" then "."
  else
    let initialSlashes : Nat :=
      if strStartsWith p "/" then
        if strStartsWith p "//" && !(strStartsWith p "///") then 2 else 1
      else 0
    let newComps := (splitChar '/' p).foldl
      (fun acc comp =>
        if comp = "" || comp = "." then acc
        else if comp != ".." || (initialSlashes == 0 && acc.isEmpty)
            || (acc.getLast? == some "..") then
          acc ++ [comp]
        else acc.dropLast)
      []
    let res := repeatSep initialSlashes ++ joinSep "/" newComps
    if res = "" then "." else res

/-! ## Data model -/

/-- One entry produced by the `community.general.filetree` lookup for a
walked source root: the path relative to the walk root, the `state`
string (`file`, `directory`, `link`, ...), and the absolute source path
(present for files and links, absent for directories). -/
structure FtEntry where
  path : String
  state : String
  src : Option String
deriving DecidableEq, Repr

/-- What the local filesystem and the loader report about one `src`
argument string: the path that `path_dwim_relative` resolves it to,
whether that resolved path exists and is a regular file
(`os.lstat` / `S_ISREG`), the walk root the filetree lookup computes for
the same term, and the walk output for that root in `os.walk` order
(empty when the term is a file or missing). -/
structure SrcInfo where
  found : String
  isRegFile : Bool
  ftRoot : String
  ftEntries : List FtEntry
deriving Repr

/-- One local entry as accumulated by `_get_local_entries`, restricted to
the keys the plugin uses: `root`, `path`, `state`, `src`. -/
structure LocalEntry where
  root : String
  path : String
  state : String
  src : Option String
deriving DecidableEq, BEq, Repr

/-- One raw result of the remote `find` module: an absolute path string
and the `isdir` / `isreg` flags. -/
structure RawRemote where
  path : String
  isdir : Bool
  isreg : Bool
deriving DecidableEq, Repr

/-- One remote entry after `_get_remote_entries` has converted the path
string into a `PurePath`. -/
structure RemoteEntry where
  path : PPath
  isdir : Bool
  isreg : Bool
deriving DecidableEq, Repr

/-- One planned create entry as produced by `_get_entries_to_create`
(and decorated with `content` by `_set_file_contents`). -/
structure CreateEntry where
  dest : String
  state : String
  owner : Option String
  group : Option String
  mode : Option String
  src : Option String
  template : Bool
  content : Option String
deriving DecidableEq, Repr

/-- The slice of a module result the plugin inspects when executing an
operation: the `failed` flag and the `msg` field. -/
structure OpResult where
  failed : Bool
  msg : String
deriving DecidableEq, Repr

/-- A Python value as far as `_parse_path_list` distinguishes them: only
strings are accepted by the `PurePath` constructor, everything else
raises. -/
inductive PyVal where
  | str (s : String)
  | int (n : Int)
  | list (xs : List PyVal)
  | null

/-- The task arguments the plugin reads.  A scalar `src` is normalised to
a one-element list by lines 27-29 of the source before any other use, so
it is modelled directly as an optional list of path strings. -/
structure Args where
  src : Option (List String)
  dest : Option String
  owner : Option String
  group : Option String
  file_mode : Option String
  directory_mode : Option String
  exclusive : Bool
  exclusive_ignore : Option PyVal

/-- The external collaborators of one run: the local filesystem view per
source path string, the remote listing, the template renderer and plain
file reader, and the modules executing delete and create operations. -/
structure Env where
  fs : String → SrcInfo
  rawRemote : List RawRemote
  render : String → String
  read : String → String
  execDelete : RemoteEntry → OpResult
  execCreate : CreateEntry → OpResult

/-- How a run ends: an early missing-argument failure, an
`AnsibleError` from argument parsing, an unhandled `ValueError` escaping
`PurePath.relative_to`, an `AnsibleError` raised by a failed operation,
or normal completion. -/
inductive RunOutcome where
  | missingArg (arg : String)
  | invalidArg (msg : String)
  | pathError
  | failed (msg : String)
  | ok
deriving DecidableEq, Repr

/-- The observable trace of one run: its outcome, the delete operations
that were executed (in execution order) and the create operations that
were executed (in execution order); every delete execution precedes
every create execution in the source (`run`, lines 57-58). -/
structure RunTrace where
  outcome : RunOutcome
  deleted : List RemoteEntry
  created : List CreateEntry
deriving DecidableEq, Repr

/-- A single mutating operation against the destination. -/
inductive Op where
  | del (r : RemoteEntry)
  | create (e : CreateEntry)
deriving DecidableEq, Repr

/-- The destination-mutating operation sequence of a trace: the executed
deletes, in order, followed by the executed creates, in order. -/
def opTrace (t : RunTrace) : List Op :=
  t.deleted.map Op.del ++ t.created.map Op.create

/-! ## Source functions -/

/-- Model of the `PurePath` constructor applied to an arbitrary Python
value: only strings succeed, everything else raises. -/
def pyPurePath : PyVal → Option PPath
  | .str s => some (parsePath s)
  | _ => none

/-- Model of `_parse_path_list` (lines 63-78): read the argument
(default empty list), wrap a scalar into a one-element list, map
`PurePath` over it, and convert the first conversion failure into an
`AnsibleError` whose message depends on whether a list was given. -/
def parse_path_list (argname : String) (v : Option PyVal) :
    Except String (List PPath) :=
  let pair : List PyVal × Bool :=
    match v.getD (.list []) with
    | .list xs => (xs, true)
    | x => ([x], false)
  match pair.1.mapM pyPurePath with
  | some ps => .ok ps
  | none =>
      .error (if pair.2 then
          "Argument \x27" ++ argname ++ "\x27 contains one or more values of an invalid type"
        else "Argument \x27" ++ argname ++ "\x27 is of an invalid type")

/-- The entry appended for a source path resolving to a regular file
(lines 93-100): root is the dirname of the found path plus a trailing
separator, path is its basename. -/
def fileRootEntry (info : SrcInfo) : LocalEntry :=
  { root := dirname info.found ++ "/"
  , path := basename info.found
  , state := "file"
  , src := some info.found }

/-- The synthetic directory entry inserted for a directory source root
(lines 108-114): root is the raw source path, relative path is empty. -/
def syntheticEntry (localPath : String) : LocalEntry :=
  { root := localPath, path := "", state := "directory", src := none }

/-- A filetree walk result converted to a local entry: the filetree
lookup attaches the walk root it computed for the term as `root`. -/
def ftLocalEntry (root : String) (e : FtEntry) : LocalEntry :=
  { root := root, path := e.path, state := e.state, src := e.src }

/-- One step of the filetree lookup accumulation: an entry is appended
only when no previously accumulated entry has the same relative path
(first match wins). -/
def ftAppendEntry (acc : List LocalEntry) (e : LocalEntry) : List LocalEntry :=
  if acc.any (fun a => a.path == e.path) then acc else acc ++ [e]

/-- Model of one `community.general.filetree` lookup invocation over the
given terms: walk every term in order and accumulate entries,
de-duplicating by relative path with first match winning. -/
def filetreeRun (fs : String → SrcInfo) (paths : List String) : List LocalEntry :=
  ((paths.map fun p => (fs p).ftEntries.map (ftLocalEntry (fs p).ftRoot)).flatten).foldl
    ftAppendEntry []

/-- Model of `_get_local_entries` (lines 80-131): for every source path,
either emit the single file entry, or emit the synthetic directory entry
followed by the output of a filetree lookup invoked on the whole
`local_paths` list (as the source does inside the loop). -/
def get_local_entries (fs : String → SrcInfo) (local_paths : List String) :
    List LocalEntry :=
  (local_paths.map fun lp =>
      let info := fs lp
      if info.isRegFile then [fileRootEntry info]
      else syntheticEntry lp :: filetreeRun fs local_paths).flatten

/-- Model of `_get_remote_entries` (lines 133-190): keep the `path`,
`isdir` and `isreg` keys of every `find` result and convert the path
string (with a spurious `/.` appended, which `PurePath` collapses) into
a `PurePath`. -/
def get_remote_entries (raw : List RawRemote) : List RemoteEntry :=
  raw.map fun r => { path := parsePath (r.path ++ "/."), isdir := r.isdir, isreg := r.isreg }

/-- The destination path computed for one local entry
(`_get_entries_to_create`, lines 196-207): normalise the relative path,
insert the basename of the root as an extra segment when the root does
not end with a separator, join onto the destination root and normalise
once more. -/
def destinationPath (remote_path : String) (e : LocalEntry) : String :=
  let relative_path := normpath e.path
  let destination_root :=
    if strEndsWith e.root "/" then remote_path
    else pjoin remote_path (basename e.root)
  normpath (pjoin destination_root relative_path)

/-- The body of the `_get_entries_to_create` loop for one local entry
(lines 195-236): files get `src`, the file mode, and template-extension
stripping; directories get the directory mode; any other state is
skipped with a warning. -/
def createEntryFor (remote_path : String)
    (owner group file_mode directory_mode : Option String)
    (e : LocalEntry) : Option CreateEntry :=
  let destination_path := destinationPath remote_path e
  if e.state = "file" then
    some { dest := if strEndsWith destination_path ".j2" then strDropRight destination_path 3
                   else destination_path
         , state := "file"
         , owner := owner
         , group := group
         , mode := file_mode
         , src := e.src
         , template := strEndsWith destination_path ".j2"
         , content := none }
  else if e.state = "directory" then
    some { dest := destination_path
         , state := "directory"
         , owner := owner
         , group := group
         , mode := directory_mode
         , src := none
         , template := false
         , content := none }
  else none

/-- Model of `_get_entries_to_create` (lines 192-236). -/
def get_entries_to_create (local_entries : List LocalEntry) (remote_path : String)
    (owner group file_mode directory_mode : Option String) : List CreateEntry :=
  local_entries.filterMap (createEntryFor remote_path owner group file_mode directory_mode)

/-- Model of `_set_file_contents` (lines 238-247): every file entry gets
its content from the template renderer or the plain reader, selected by
the `template` flag. -/
def set_file_contents (render read : String → String) (entries : List CreateEntry) :
    List CreateEntry :=
  entries.map fun e =>
    if e.state = "file" then
      { e with content := some (if e.template then render (e.src.getD "")
                                else read (e.src.getD "")) }
    else e

/-- The remote state string derived from the two flags (lines 327-333):
`isdir` first, then `isreg`, otherwise `other`. -/
def remoteState (r : RemoteEntry) : String :=
  if r.isdir then "directory" else if r.isreg then "file" else "other"

/-- The ignore-path rewriting at the top of `_get_entries_to_delete`
(lines 274-282): absolute ignore paths are made relative to the
destination root; the failure case models the `ValueError` that
`relative_to` raises when an absolute ignore path is not under the
destination root. -/
def rewriteIgnore (remote_path : String) : List PPath → Option (List PPath)
  | [] => some []
  | i :: rest => do
      let r ← if i.isAbs then relativeTo i (parsePath remote_path) else some i
      let tail ← rewriteIgnore remote_path rest
      pure (r :: tail)

/-- The deletion decision for one remote entry (body of the
`_get_entries_to_delete` loop, lines 284-342): `some true` means the
entry is yielded for deletion, `some false` means it is kept, `none`
models the `ValueError` raised by `relative_to` when the remote path is
not under the destination root. -/
def deleteDecision (local_entries : List CreateEntry) (remote_path : String)
    (exclusive : Bool) (ignoreRel : List PPath) (r : RemoteEntry) : Option Bool := do
  let relative_path ← relativeTo r.path (parsePath remote_path)
  match local_entries.find? (fun le => parsePath le.dest == r.path) with
  | none =>
      pure (exclusive && !(ignoreRel.any (fun ig => isRelativeTo relative_path ig)))
  | some local_match =>
      pure (local_match.state != remoteState r)

/-- The loop of `_get_entries_to_delete` over the remote entries,
keeping those whose decision is `true`, in listing order. -/
def entriesToDelete (local_entries : List CreateEntry) (remote_path : String)
    (exclusive : Bool) (ignoreRel : List PPath) :
    List RemoteEntry → Option (List RemoteEntry)
  | [] => some []
  | r :: rest => do
      let d ← deleteDecision local_entries remote_path exclusive ignoreRel r
      let tail ← entriesToDelete local_entries remote_path exclusive ignoreRel rest
      pure (if d then r :: tail else tail)

/-- Model of `_get_entries_to_delete` (lines 266-342). -/
def get_entries_to_delete (local_entries : List CreateEntry)
    (remote_entries : List RemoteEntry) (remote_path : String)
    (exclusive : Bool) (exclusive_ignore : List PPath) : Option (List RemoteEntry) := do
  let ignoreRel ← rewriteIgnore remote_path exclusive_ignore
  entriesToDelete local_entries remote_path exclusive ignoreRel remote_entries

/-- The shared execution loop of `_delete_entries` (lines 344-356) and
`_create_entries` (lines 358-367): execute each entry in order; a result
with `failed` set raises `AnsibleError(res.msg)` immediately, executing
nothing further.  Returns the entries whose operation was invoked (the
failing one included), the results collected before the failure, and the
raised message if any. -/
def execEntries (f : α → OpResult) : List α → List α × List OpResult × Option String
  | [] => ([], [], none)
  | e :: rest =>
      let r := f e
      if r.failed then ([e], [], some r.msg)
      else
        let out := execEntries f rest
        (e :: out.1, r :: out.2.1, out.2.2)

/-- Model of `_delete_entries` (lines 344-356). -/
def delete_entries (f : RemoteEntry → OpResult) (entries : List RemoteEntry) :
    List RemoteEntry × List OpResult × Option String :=
  execEntries f entries

/-- Model of `_create_entries` (lines 358-367); the dispatch between
`_copy_file` and `_create_directory` happens inside the collaborator,
keyed by the `state` field of the entry it receives. -/
def create_entries (g : CreateEntry → OpResult) (entries : List CreateEntry) :
    List CreateEntry × List OpResult × Option String :=
  execEntries g entries

/-- The `to_create` list of a run (lines 40-49): local entries are
merged, mapped to destination entries, and decorated with content. -/
def planCreate (env : Env) (local_paths : List String) (remote_path : String)
    (owner group file_mode directory_mode : Option String) : List CreateEntry :=
  set_file_contents env.render env.read
    (get_entries_to_create (get_local_entries env.fs local_paths) remote_path
      owner group file_mode directory_mode)

/-- The `to_delete` list of a run (lines 51-55). -/
def planDelete (env : Env) (local_paths : List String) (remote_path : String)
    (owner group file_mode directory_mode : Option String)
    (exclusive : Bool) (exclusive_ignore : List PPath) : Option (List RemoteEntry) :=
  get_entries_to_delete
    (planCreate env local_paths remote_path owner group file_mode directory_mode)
    (get_remote_entries env.rawRemote) remote_path exclusive exclusive_ignore

/-- The execution stage of a run (lines 57-58): all deletes first, in
listing order, then all creates, in plan order, aborting at the first
failed operation. -/
def executePlan (env : Env) (to_delete : List RemoteEntry) (to_create : List CreateEntry) :
    RunTrace :=
  let dOut := delete_entries env.execDelete to_delete
  match dOut.2.2 with
  | some m => { outcome := .failed m, deleted := dOut.1, created := [] }
  | none =>
      let cOut := create_entries env.execCreate to_create
      match cOut.2.2 with
      | some m => { outcome := .failed m, deleted := dOut.1, created := cOut.1 }
      | none => { outcome := .ok, deleted := dOut.1, created := cOut.1 }

/-- Model of `run` (lines 16-61): check the required arguments in order
(`src`, then `dest`), parse `exclusive_ignore`, compute the create plan
and the delete plan, then execute deletes followed by creates. -/
def runModel (env : Env) (args : Args) : RunTrace :=
  match args.src with
  | none => { outcome := .missingArg "src", deleted := [], created := [] }
  | some local_paths =>
    match args.dest with
    | none => { outcome := .missingArg "dest", deleted := [], created := [] }
    | some remote_path =>
      match parse_path_list "exclusive_ignore" args.exclusive_ignore with
      | .error m => { outcome := .invalidArg m, deleted := [], created := [] }
      | .ok exclusive_ignore =>
        match planDelete env local_paths remote_path args.owner args.group
            args.file_mode args.directory_mode args.exclusive exclusive_ignore with
        | none => { outcome := .pathError, deleted := [], created := [] }
        | some to_delete =>
            executePlan env to_delete
              (planCreate env local_paths remote_path args.owner args.group
                args.file_mode args.directory_mode)

/-! ## Concrete scenarios

Concrete environments used to evaluate the model: a trivial environment,
the scenario of the specification (source root `app/` containing
`config.yml` and `data/`, destination `/opt/app` holding a stray file and
a stale directory), a two-directory-root environment, and an environment
where a file of one root collides with the root directory of another. -/

/-- A trivial environment: empty filesystem, empty remote listing, all
operations succeed. -/
def envW : Env :=
  { fs := fun _ => { found := "", isRegFile := false, ftRoot := "", ftEntries := [] }
  , rawRemote := []
  , render := fun _ => ""
  , read := fun _ => ""
  , execDelete := fun _ => { failed := false, msg := "" }
  , execCreate := fun _ => { failed := false, msg := "" } }

/-- Local filesystem of the specification scenario: `app/` resolves to a
directory containing the file `config.yml` and the directory `data`. -/
def fsApp : String → SrcInfo := fun p =>
  if p = "app/" then
    { found := "/r/files/app/", isRegFile := false, ftRoot := "/r/files/app/"
    , ftEntries := [{ path := "config.yml", state := "file", src := some "/r/files/app/config.yml" }
                  , { path := "data", state := "directory", src := none }] }
  else { found := "", isRegFile := false, ftRoot := "", ftEntries := [] }

/-- The specification scenario environment: the destination holds a stray
file `old.txt` and a directory `config.yml` where a file is planned; all
operations succeed. -/
def envApp : Env :=
  { fs := fsApp
  , rawRemote := [{ path := "/opt/app/old.txt", isdir := false, isreg := true }
                , { path := "/opt/app/config.yml", isdir := true, isreg := false }]
  , render := fun _ => "R"
  , read := fun _ => "C"
  , execDelete := fun _ => { failed := false, msg := "" }
  , execCreate := fun _ => { failed := false, msg := "" } }

/-- The specification scenario environment with a delete collaborator
that fails on `/opt/app/old.txt`. -/
def envAppFail : Env :=
  { envApp with
    execDelete := fun r =>
      if r.path == parsePath "/opt/app/old.txt" then { failed := true, msg := "remove failed" }
      else { failed := false, msg := "" } }

/-- The task arguments of the specification scenario. -/
def argsApp : Args :=
  { src := some ["app/"], dest := some "/opt/app", owner := none, group := none
  , file_mode := none, directory_mode := none, exclusive := true, exclusive_ignore := none }

/-- The stray remote file of the specification scenario, as
`_get_remote_entries` represents it. -/
def oldR : RemoteEntry :=
  { path := { isAbs := true, parts := ["opt", "app", "old.txt"] }, isdir := false, isreg := true }

/-- The stale remote directory of the specification scenario. -/
def cfgR : RemoteEntry :=
  { path := { isAbs := true, parts := ["opt", "app", "config.yml"] }, isdir := true, isreg := false }

/-- The create plan of the specification scenario. -/
def tcApp : List CreateEntry :=
  planCreate envApp ["app/"] "/opt/app" none none none none

/-- The remote entries of the specification scenario. -/
def remApp : List RemoteEntry :=
  get_remote_entries envApp.rawRemote

/-- The path of the stray remote file relative to the destination root. -/
def relOld : PPath :=
  { isAbs := false, parts := ["old.txt"] }

/-- The path of the stale remote directory relative to the destination
root. -/
def relCfg : PPath :=
  { isAbs := false, parts := ["config.yml"] }

/-- The planned file entry of the specification scenario that matches
the stale remote directory by path. -/
def cfgCreate : CreateEntry :=
  { dest := "/opt/app/config.yml", state := "file", owner := none, group := none
  , mode := none, src := some "/r/files/app/config.yml", template := false
  , content := some "C" }

/-- Local filesystem with two directory roots `a` (containing file `f`)
and `b` (containing file `y`). -/
def fsB : String → SrcInfo := fun p =>
  if p = "a" then
    { found := "/r/files/a", isRegFile := false, ftRoot := "/r/files/a"
    , ftEntries := [{ path := "f", state := "file", src := some "/r/files/a/f" }] }
  else if p = "b" then
    { found := "/r/files/b", isRegFile := false, ftRoot := "/r/files/b"
    , ftEntries := [{ path := "y", state := "file", src := some "/r/files/b/y" }] }
  else { found := "", isRegFile := false, ftRoot := "", ftEntries := [] }

/-- Environment over `fsB` with an empty destination. -/
def envB : Env :=
  { fs := fsB
  , rawRemote := []
  , render := fun _ => "R"
  , read := fun _ => "C"
  , execDelete := fun _ => { failed := false, msg := "" }
  , execCreate := fun _ => { failed := false, msg := "" } }

/-- The filetree entry of root `a`, as a local entry. -/
def fEntryA : LocalEntry :=
  ftLocalEntry "/r/files/a" { path := "f", state := "file", src := some "/r/files/a/f" }

/-- The filetree entry of root `b`, as a local entry. -/
def yEntryB : LocalEntry :=
  ftLocalEntry "/r/files/b" { path := "y", state := "file", src := some "/r/files/b/y" }

/-- Local filesystem where root `a/` (contents copied directly)
contains a file named `b`, while root `b` is an empty directory: both
map something to the destination path `/d/b`, with different kinds. -/
def fsCollide : String → SrcInfo := fun p =>
  if p = "a/" then
    { found := "/r/files/a/", isRegFile := false, ftRoot := "/r/files/a/"
    , ftEntries := [{ path := "b", state := "file", src := some "/r/files/a/b" }] }
  else if p = "b" then
    { found := "/r/files/b", isRegFile := false, ftRoot := "/r/files/b", ftEntries := [] }
  else { found := "", isRegFile := false, ftRoot := "", ftEntries := [] }

/-- Environment over `fsCollide` whose destination already holds a
directory at `/d/b`. -/
def envCollide : Env :=
  { fs := fsCollide
  , rawRemote := [{ path := "/d/b", isdir := true, isreg := false }]
  , render := fun _ => "R"
  , read := fun _ => "C"
  , execDelete := fun _ => { failed := false, msg := "" }
  , execCreate := fun _ => { failed := false, msg := "" } }

/-- The remote directory `/d/b` of the collision scenario. -/
def dbR : RemoteEntry :=
  { path := { isAbs := true, parts := ["d", "b"] }, isdir := true, isreg := false }

/-! ## Helper lemmas -/

/-- Membership in the delete set is exactly membership in the remote
listing together with a positive deletion decision. -/
theorem entriesToDelete_mem (tc : List CreateEntry) (rp : String) (excl : Bool)
    (ignR : List PPath) (rem : List RemoteEntry) :
    ∀ l, entriesToDelete tc rp excl ignR rem = some l →
      ∀ r, r ∈ l ↔ (r ∈ rem ∧ deleteDecision tc rp excl ignR r = some true) := by
  induction rem with
  | nil =>
    intro l h r
    simp only [entriesToDelete, Option.some.injEq] at h
    subst h
    simp
  | cons r0 rest ih =>
    intro l h r
    simp only [entriesToDelete] at h
    cases hd : deleteDecision tc rp excl ignR r0 with
    | none => rw [hd] at h; simp at h
    | some d =>
      rw [hd] at h
      cases ht : entriesToDelete tc rp excl ignR rest with
      | none => rw [ht] at h; simp at h
      | some tail =>
        rw [ht] at h
        simp only [Option.bind_eq_bind, Option.some_bind, Option.pure_def,
          Option.some.injEq] at h
        subst h
        have iht := ih tail ht r
        by_cases hr0 : r = r0
        · subst hr0
          cases d with
          | true => simp [hd]
          | false => simp [iht, hd]
        · cases d <;> simp [List.mem_cons, hr0, iht]

/-- The delete set is a sublist of the remote listing (deletes happen in
listing order). -/
theorem entriesToDelete_sublist (tc : List CreateEntry) (rp : String) (excl : Bool)
    (ignR : List PPath) (rem : List RemoteEntry) :
    ∀ l, entriesToDelete tc rp excl ignR rem = some l → List.Sublist l rem := by
  induction rem with
  | nil =>
    intro l h
    simp only [entriesToDelete, Option.some.injEq] at h
    subst h
    exact List.Sublist.refl []
  | cons r0 rest ih =>
    intro l h
    simp only [entriesToDelete] at h
    cases hd : deleteDecision tc rp excl ignR r0 with
    | none => rw [hd] at h; simp at h
    | some d =>
      rw [hd] at h
      cases ht : entriesToDelete tc rp excl ignR rest with
      | none => rw [ht] at h; simp at h
      | some tail =>
        rw [ht] at h
        simp only [Option.bind_eq_bind, Option.some_bind, Option.pure_def,
          Option.some.injEq] at h
        subst h
        cases d with
        | true => simpa using List.Sublist.cons₂ r0 (ih tail ht)
        | false => simpa using List.Sublist.cons r0 (ih tail ht)

/-- `get_entries_to_delete` reduces to the loop once the ignore list has
been rewritten. -/
theorem get_entries_to_delete_eq (tc : List CreateEntry) (rem : List RemoteEntry)
    (rp : String) (excl : Bool) (ign ignR : List PPath)
    (hrw : rewriteIgnore rp ign = some ignR) :
    get_entries_to_delete tc rem rp excl ign = entriesToDelete tc rp excl ignR rem := by
  simp [get_entries_to_delete, hrw]

/-- If some ignore path is absolute and not under the destination root,
the ignore rewriting raises. -/
theorem rewriteIgnore_eq_none (rp : String) (igs : List PPath) (ig : PPath)
    (hig : ig ∈ igs) (habs : ig.isAbs = true)
    (hout : relativeTo ig (parsePath rp) = none) :
    rewriteIgnore rp igs = none := by
  induction igs with
  | nil => cases hig
  | cons i rest ih =>
    rcases List.mem_cons.mp hig with h | h
    · subst h
      simp [rewriteIgnore, habs, hout]
    · have hr := ih h
      simp only [rewriteIgnore]
      by_cases hia : i.isAbs
      · simp only [hia, if_true]
        cases hri : relativeTo i (parsePath rp) with
        | none => simp
        | some r => simp [hr]
      · simp [hia, hr]

/-- The executed entries are always a leading run of the input list. -/
theorem execEntries_fst_take (f : α → OpResult) (l : List α) :
    (execEntries f l).1 = l.take (execEntries f l).1.length := by
  induction l with
  | nil => simp [execEntries]
  | cons e rest ih =>
    simp only [execEntries]
    by_cases h : (f e).failed
    · simp [h]
    · simp only [h, if_neg, Bool.false_eq_true, if_false, List.length_cons, List.take_succ_cons,
        List.cons.injEq, true_and]
      exact ih

/-- When nothing failed, every entry was executed. -/
theorem execEntries_none_fst (f : α → OpResult) (l : List α)
    (h : (execEntries f l).2.2 = none) : (execEntries f l).1 = l := by
  induction l with
  | nil => simp [execEntries]
  | cons e rest ih =>
    simp only [execEntries] at h ⊢
    by_cases hf : (f e).failed
    · simp [hf] at h
    · simp only [hf, Bool.false_eq_true, if_false] at h ⊢
      simp [ih h]

/-- When every result reports success, the whole list executes and the
results are collected in order. -/
theorem execEntries_ok (f : α → OpResult) (l : List α)
    (h : ∀ x ∈ l, (f x).failed = false) :
    execEntries f l = (l, l.map f, none) := by
  induction l with
  | nil => simp [execEntries]
  | cons e rest ih =>
    have he : (f e).failed = false := h e (List.mem_cons_self e rest)
    simp [execEntries, he, ih (fun x hx => h x (List.mem_cons_of_mem e hx))]

/-- The first failing entry stops execution at itself: everything before
it was executed and collected, the failing operation was invoked, its
message is raised, and nothing after it runs. -/
theorem execEntries_firstFail (f : α → OpResult) (l₁ : List α) (bad : α) (l₂ : List α)
    (h1 : ∀ x ∈ l₁, (f x).failed = false) (hb : (f bad).failed = true) :
    execEntries f (l₁ ++ bad :: l₂) = (l₁ ++ [bad], l₁.map f, some (f bad).msg) := by
  induction l₁ with
  | nil => simp [execEntries, hb]
  | cons e rest ih =>
    have he : (f e).failed = false := h1 e (List.mem_cons_self e rest)
    simp [execEntries, he, ih (fun x hx => h1 x (List.mem_cons_of_mem e hx))]

/-- Shape of the execution stage: executed deletes are a leading run of
the delete plan, executed creates a leading run of the create plan, and
creates only start once every delete has run. -/
theorem executePlan_shape (env : Env) (td : List RemoteEntry) (tc : List CreateEntry) :
    (executePlan env td tc).deleted = td.take (executePlan env td tc).deleted.length
    ∧ (executePlan env td tc).created = tc.take (executePlan env td tc).created.length
    ∧ ((executePlan env td tc).created ≠ [] → (executePlan env td tc).deleted = td) := by
  have hD0 := execEntries_fst_take env.execDelete td
  have hC0 := execEntries_fst_take env.execCreate tc
  have hDn0 := execEntries_none_fst env.execDelete td
  rcases hE : execEntries env.execDelete td with ⟨dInv, dRes, dErr⟩
  rcases hF : execEntries env.execCreate tc with ⟨cInv, cRes, cErr⟩
  rw [hE] at hD0 hDn0
  rw [hF] at hC0
  simp only [executePlan, delete_entries, create_entries, hE, hF]
  cases dErr with
  | some m => exact ⟨hD0, by simp, by simp⟩
  | none =>
    cases cErr with
    | some m => exact ⟨hD0, hC0, fun _ => hDn0 rfl⟩
    | none => exact ⟨hD0, hC0, fun _ => hDn0 rfl⟩

/-- Reduction of `runModel` to the execution stage when all arguments
are present and valid. -/
theorem runModel_stage (env : Env) (lp : List String) (rp : String)
    (o g fm dm : Option String) (excl : Bool) (ei : Option PyVal)
    (igs : List PPath) (td : List RemoteEntry)
    (hparse : parse_path_list "exclusive_ignore" ei = .ok igs)
    (htd : planDelete env lp rp o g fm dm excl igs = some td) :
    runModel env { src := some lp, dest := some rp, owner := o, group := g
                 , file_mode := fm, directory_mode := dm, exclusive := excl
                 , exclusive_ignore := ei }
      = executePlan env td (planCreate env lp rp o g fm dm) := by
  simp [runModel, hparse, htd]

/-- A delete plan is always a sublist of the remote listing. -/
theorem planDelete_sublist (env : Env) (lp : List String) (rp : String)
    (o g fm dm : Option String) (excl : Bool) (igs : List PPath) (td : List RemoteEntry)
    (htd : planDelete env lp rp o g fm dm excl igs = some td) :
    List.Sublist td (get_remote_entries env.rawRemote) := by
  unfold planDelete at htd
  cases hrw : rewriteIgnore rp igs with
  | none => rw [get_entries_to_delete, hrw] at htd; simp at htd
  | some ignR =>
    rw [get_entries_to_delete_eq _ _ _ _ _ _ hrw] at htd
    exact entriesToDelete_sublist _ _ _ _ _ td htd

/-! ## Claim theorems -/

/-- Claim C1: the claim states that `to_create` never contains two
entries with the same destination path, for any number of source roots.
The code violates this: `_get_local_entries` invokes the filetree lookup
on the whole `local_paths` list once per directory root, inside the
per-root loop, so with the two directory roots `a` (containing file `f`)
and `b` (containing file `y`) the merged listing is appended twice and
the create plan maps `/d/a/f` and `/d/b/y` each twice.  This theorem
evaluates the create plan of that run. -/
theorem plan_duplicate_destinations :
    (planCreate envB ["a", "b"] "/d" none none none none).map (fun e => e.dest)
      = ["/d/a", "/d/a/f", "/d/b/y", "/d/b", "/d/a/f", "/d/b/y"]
    ∧ ¬ ((planCreate envB ["a", "b"] "/d" none none none none).map
        (fun e => e.dest)).Nodup := by
  exact ⟨by decide, by decide⟩

/-- Claim C8: the claim states that every directory root's synthetic
entry precedes every entry for that root's descendants.  The code
violates this for two or more directory roots: while processing root
`a`, the filetree lookup over all of `local_paths` already emits the
descendants of root `b`, before the synthetic entry of `b` is appended.
This theorem evaluates the merger output on roots `a` and `b`: the
descendant `yEntryB` of root `b` sits at index 2 while the synthetic
entry of `b` sits at index 3. -/
theorem merger_descendant_precedes_root :
    get_local_entries fsB ["a", "b"]
      = [syntheticEntry "a", fEntryA, yEntryB, syntheticEntry "b", fEntryA, yEntryB]
    ∧ List.indexOf yEntryB (get_local_entries fsB ["a", "b"])
        < List.indexOf (syntheticEntry "b") (get_local_entries fsB ["a", "b"]) := by
  exact ⟨by decide, by decide⟩

/-- Claim C2: a remote entry matched by no planned destination path is
queued for deletion exactly when `exclusive` is set and its relative
path is neither equal to nor nested under any ignore path (absolute
ignore paths having first been rewritten relative to the destination
root, as lines 274-282 do). -/
theorem reconciler_exclusive_unmatched
    (tc : List CreateEntry) (rem l : List RemoteEntry) (rp : String) (excl : Bool)
    (ign ignR : List PPath) (r : RemoteEntry) (rel : PPath)
    (hrw : rewriteIgnore rp ign = some ignR)
    (hres : get_entries_to_delete tc rem rp excl ign = some l)
    (hmem : r ∈ rem)
    (hrel : relativeTo r.path (parsePath rp) = some rel)
    (hnone : tc.find? (fun le => parsePath le.dest == r.path) = none) :
    r ∈ l ↔ (excl = true ∧ ∀ ig ∈ ignR, isRelativeTo rel ig = false) := by
  rw [get_entries_to_delete_eq tc rem rp excl ign ignR hrw] at hres
  rw [entriesToDelete_mem tc rp excl ignR rem l hres r]
  have hdec : deleteDecision tc rp excl ignR r
      = some (excl && !(ignR.any (fun ig => isRelativeTo rel ig))) := by
    simp [deleteDecision, hrel, hnone]
  rw [hdec]
  simp [hmem, List.any_eq_false]

/-- Witness for claim C2: in the specification scenario the stray file
`/opt/app/old.txt` matches no planned destination; with `exclusive` set
and an empty ignore list it is queued for deletion, and the biconditional
of the theorem holds at it. -/
theorem reconciler_exclusive_unmatched_witness :
    get_entries_to_delete tcApp remApp "/opt/app" true [] = some [oldR, cfgR]
    ∧ (oldR ∈ [oldR, cfgR]
        ↔ (true = true ∧ ∀ ig ∈ ([] : List PPath), isRelativeTo relOld ig = false)) := by
  refine ⟨by decide, ?_⟩
  exact reconciler_exclusive_unmatched tcApp remApp [oldR, cfgR] "/opt/app" true [] []
    oldR relOld (by decide) (by decide) (by decide) (by decide) (by decide)

/-- Claim C3: a remote entry whose path equals a planned destination
path but whose derived kind (directory when `isdir`, file when `isreg`,
other when neither) differs from the planned kind is queued for
deletion, for every value of `exclusive` and of the ignore list. -/
theorem reconciler_kind_mismatch_deleted
    (tc : List CreateEntry) (rem l : List RemoteEntry) (rp : String) (excl : Bool)
    (ign : List PPath) (r : RemoteEntry) (rel : PPath) (e : CreateEntry)
    (hres : get_entries_to_delete tc rem rp excl ign = some l)
    (hmem : r ∈ rem)
    (hrel : relativeTo r.path (parsePath rp) = some rel)
    (hfind : tc.find? (fun le => parsePath le.dest == r.path) = some e)
    (hmis : e.state ≠ remoteState r) :
    r ∈ l := by
  cases hrw : rewriteIgnore rp ign with
  | none => simp [get_entries_to_delete, hrw] at hres
  | some ignR =>
    rw [get_entries_to_delete_eq tc rem rp excl ign ignR hrw] at hres
    rw [entriesToDelete_mem tc rp excl ignR rem l hres r]
    refine ⟨hmem, ?_⟩
    simp [deleteDecision, hrel, hfind, hmis]

/-- Witness for claim C3: in the specification scenario the remote
directory `/opt/app/config.yml` is matched by the planned file of the
same path; the kinds differ, so it is queued for deletion even though
the run is exclusive with an empty ignore list (and the theorem holds
for every `exclusive` value). -/
theorem reconciler_kind_mismatch_witness :
    get_entries_to_delete tcApp remApp "/opt/app" true [] = some [oldR, cfgR]
    ∧ cfgR ∈ [oldR, cfgR] := by
  refine ⟨by decide, ?_⟩
  exact reconciler_kind_mismatch_deleted tcApp remApp [oldR, cfgR] "/opt/app" true []
    cfgR relCfg cfgCreate (by decide) (by decide) (by decide) (by decide) (by decide)

/-- Claim C4 as stated is refuted: this theorem exhibits a run (source
roots `a/` and `b`, where `a/` contributes a planned file `/d/b` and the
root `b` itself maps to a planned directory `/d/b`) whose delete set
contains the remote directory `/d/b` although a planned create entry
with the same destination path and the same kind exists — the reconciler
compares only the first matching planned entry, which here is the file.
The run is not even exclusive. -/
theorem delete_set_contains_matching_kind_path :
    planDelete envCollide ["a/", "b"] "/d" none none none none false [] = some [dbR]
    ∧ (planCreate envCollide ["a/", "b"] "/d" none none none none).any
        (fun e => parsePath e.dest == dbR.path && e.state == remoteState dbR) = true := by
  exact ⟨by decide, by decide⟩

/-- Claim C4 (amended): the delete set never contains a remote entry
whose FIRST matching planned entry (in plan order) has the same kind:
whenever a deleted remote entry has a first match among the planned
entries, that match's kind differs from the remote kind. -/
theorem delete_set_first_match_kind_differs
    (tc : List CreateEntry) (rem l : List RemoteEntry) (rp : String) (excl : Bool)
    (ign : List PPath) (r : RemoteEntry) (e : CreateEntry)
    (hres : get_entries_to_delete tc rem rp excl ign = some l)
    (hr : r ∈ l)
    (hfind : tc.find? (fun le => parsePath le.dest == r.path) = some e) :
    e.state ≠ remoteState r := by
  cases hrw : rewriteIgnore rp ign with
  | none => simp [get_entries_to_delete, hrw] at hres
  | some ignR =>
    rw [get_entries_to_delete_eq tc rem rp excl ign ignR hrw] at hres
    obtain ⟨-, hdec⟩ := (entriesToDelete_mem tc rp excl ignR rem l hres r).mp hr
    cases hrel : relativeTo r.path (parsePath rp) with
    | none => simp [deleteDecision, hrel] at hdec
    | some rel =>
      simp only [deleteDecision, hrel, hfind, Option.bind_eq_bind, Option.some_bind,
        Option.pure_def, Option.some.injEq] at hdec
      simpa using hdec

/-- Witness for the amended claim C4: in the specification scenario the
deleted remote directory `/opt/app/config.yml` has the planned file of
the same path as its first match, and the kinds indeed differ. -/
theorem delete_set_first_match_kind_witness :
    get_entries_to_delete tcApp remApp "/opt/app" true [] = some [oldR, cfgR]
    ∧ tcApp.find? (fun le => parsePath le.dest == cfgR.path) = some cfgCreate
    ∧ cfgCreate.state ≠ remoteState cfgR := by
  refine ⟨by decide, by decide, ?_⟩
  exact delete_set_first_match_kind_differs tcApp remApp [oldR, cfgR] "/opt/app" true []
    cfgR cfgCreate (by decide) (by decide) (by decide)

/-- Claim C5: in the executed operation sequence of a run, every delete
precedes every create; the executed deletes are a leading run of the
delete plan (itself in destination-listing order, being a sublist of
the listing) and the executed creates a leading run of the create plan
(in merger emission order), and creates only begin once the whole
delete plan has executed. -/
theorem run_deletes_before_creates
    (env : Env) (lp : List String) (rp : String) (o g fm dm : Option String)
    (excl : Bool) (ei : Option PyVal) (igs : List PPath)
    (tc : List CreateEntry) (td : List RemoteEntry) (t : RunTrace)
    (hparse : parse_path_list "exclusive_ignore" ei = .ok igs)
    (htc : tc = planCreate env lp rp o g fm dm)
    (htd : planDelete env lp rp o g fm dm excl igs = some td)
    (ht : t = runModel env { src := some lp, dest := some rp, owner := o, group := g
                           , file_mode := fm, directory_mode := dm, exclusive := excl
                           , exclusive_ignore := ei }) :
    t.deleted = td.take t.deleted.length
    ∧ t.created = tc.take t.created.length
    ∧ opTrace t = t.deleted.map Op.del ++ t.created.map Op.create
    ∧ (t.created ≠ [] → t.deleted = td)
    ∧ List.Sublist td (get_remote_entries env.rawRemote) := by
  subst htc ht
  rw [runModel_stage env lp rp o g fm dm excl ei igs td hparse htd]
  obtain ⟨h1, h2, h3⟩ := executePlan_shape env td (planCreate env lp rp o g fm dm)
  exact ⟨h1, h2, rfl, h3, planDelete_sublist env lp rp o g fm dm excl igs td htd⟩

/-- Witness for claim C5: the fully successful specification run
executes exactly its two planned deletes followed by its three planned
creates, in order. -/
theorem run_deletes_before_creates_witness :
    (runModel envApp argsApp).deleted
        = [oldR, cfgR].take (runModel envApp argsApp).deleted.length
    ∧ (runModel envApp argsApp).created
        = tcApp.take (runModel envApp argsApp).created.length
    ∧ opTrace (runModel envApp argsApp)
        = (runModel envApp argsApp).deleted.map Op.del
          ++ (runModel envApp argsApp).created.map Op.create
    ∧ ((runModel envApp argsApp).created ≠ []
        → (runModel envApp argsApp).deleted = [oldR, cfgR])
    ∧ List.Sublist [oldR, cfgR] (get_remote_entries envApp.rawRemote) := by
  exact run_deletes_before_creates envApp ["app/"] "/opt/app" none none none none true none
    [] tcApp [oldR, cfgR] (runModel envApp argsApp) rfl (by decide) (by decide)
    (by decide)

/-- Claim C6: a failed operation aborts the run at that operation.  If
the first failing delete is reached, the run ends with outcome
`failed msg` carrying the collaborator message verbatim, having invoked
exactly the preceding deletes plus the failing one and no create; if all
deletes succeed and a first failing create is reached, the run ends with
that message, having invoked all deletes, the preceding creates and the
failing one, and nothing after it.  Previously executed operations stay
in the trace: nothing is rolled back. -/
theorem run_aborts_on_operation_failure
    (env : Env) (lp : List String) (rp : String) (o g fm dm : Option String)
    (excl : Bool) (ei : Option PyVal) (igs : List PPath)
    (tc : List CreateEntry) (td : List RemoteEntry)
    (hparse : parse_path_list "exclusive_ignore" ei = .ok igs)
    (htc : tc = planCreate env lp rp o g fm dm)
    (htd : planDelete env lp rp o g fm dm excl igs = some td) :
    (∀ td₁ bad td₂, td = td₁ ++ bad :: td₂ →
        (∀ x ∈ td₁, (env.execDelete x).failed = false) →
        (env.execDelete bad).failed = true →
        runModel env { src := some lp, dest := some rp, owner := o, group := g
                     , file_mode := fm, directory_mode := dm, exclusive := excl
                     , exclusive_ignore := ei }
          = { outcome := .failed (env.execDelete bad).msg
            , deleted := td₁ ++ [bad], created := [] })
    ∧ (∀ tc₁ bad tc₂, tc = tc₁ ++ bad :: tc₂ →
        (∀ x ∈ td, (env.execDelete x).failed = false) →
        (∀ x ∈ tc₁, (env.execCreate x).failed = false) →
        (env.execCreate bad).failed = true →
        runModel env { src := some lp, dest := some rp, owner := o, group := g
                     , file_mode := fm, directory_mode := dm, exclusive := excl
                     , exclusive_ignore := ei }
          = { outcome := .failed (env.execCreate bad).msg
            , deleted := td, created := tc₁ ++ [bad] }) := by
  constructor
  · intro td₁ bad td₂ hsplit h1 hb
    rw [runModel_stage env lp rp o g fm dm excl ei igs td hparse htd]
    subst hsplit
    simp [executePlan, delete_entries,
      execEntries_firstFail env.execDelete td₁ bad td₂ h1 hb]
  · intro tc₁ bad tc₂ hsplit hdok h1 hb
    rw [runModel_stage env lp rp o g fm dm excl ei igs td hparse htd]
    rw [← htc, hsplit]
    simp [executePlan, delete_entries, create_entries,
      execEntries_ok env.execDelete td hdok,
      execEntries_firstFail env.execCreate tc₁ bad tc₂ h1 hb]

/-- Witness for claim C6: with a delete collaborator that fails on
`/opt/app/old.txt`, the specification run stops at that first delete,
surfaces the message `remove failed`, and executes no further delete and
no create. -/
theorem run_aborts_on_operation_failure_witness :
    runModel envAppFail { src := some ["app/"], dest := some "/opt/app", owner := none
                        , group := none, file_mode := none, directory_mode := none
                        , exclusive := true, exclusive_ignore := none }
      = { outcome := .failed "remove failed", deleted := [oldR], created := [] } := by
  have h := (run_aborts_on_operation_failure envAppFail ["app/"] "/opt/app" none none none
    none true none [] (planCreate envAppFail ["app/"] "/opt/app" none none none none)
    [oldR, cfgR] rfl rfl (by decide)).1 [] oldR [cfgR] rfl (by simp) (by decide)
  exact h.trans (by decide)

/-- Claim C7: a missing `src` argument, a missing `dest` argument, or an
`exclusive_ignore` value that is not a valid path value each fail the
run before any destination mutation: the outcome is the corresponding
argument error and the executed delete and create traces are empty. -/
theorem run_validates_arguments (env : Env) (args : Args) :
    (args.src = none → runModel env args
        = { outcome := .missingArg "src", deleted := [], created := [] })
    ∧ (∀ lp, args.src = some lp → args.dest = none → runModel env args
        = { outcome := .missingArg "dest", deleted := [], created := [] })
    ∧ (∀ lp rp m, args.src = some lp → args.dest = some rp →
        parse_path_list "exclusive_ignore" args.exclusive_ignore = .error m →
        runModel env args
          = { outcome := .invalidArg m, deleted := [], created := [] }) := by
  obtain ⟨s, d, o, g, fm, dm, ex, ei⟩ := args
  refine ⟨?_, ?_, ?_⟩
  · intro h
    cases h
    rfl
  · intro lp h hd
    cases h
    cases hd
    rfl
  · intro lp rp m h hd hp
    cases h
    cases hd
    simp [runModel, hp]

/-- Witness for claim C7: a run without `src`, a run without `dest`, and
a run whose `exclusive_ignore` is the integer 3 each fail with the
corresponding argument error and empty operation traces. -/
theorem run_validates_arguments_witness :
    runModel envW { src := none, dest := none, owner := none, group := none
                  , file_mode := none, directory_mode := none, exclusive := false
                  , exclusive_ignore := none }
      = { outcome := .missingArg "src", deleted := [], created := [] }
    ∧ runModel envW { src := some ["a"], dest := none, owner := none, group := none
                    , file_mode := none, directory_mode := none, exclusive := false
                    , exclusive_ignore := none }
      = { outcome := .missingArg "dest", deleted := [], created := [] }
    ∧ runModel envW { src := some ["a"], dest := some "/d", owner := none, group := none
                    , file_mode := none, directory_mode := none, exclusive := false
                    , exclusive_ignore := some (.int 3) }
      = { outcome := .invalidArg
            "Argument \x27exclusive_ignore\x27 is of an invalid type"
        , deleted := [], created := [] } := by
  refine ⟨?_, ?_, ?_⟩
  · exact (run_validates_arguments envW _).1 rfl
  · exact (run_validates_arguments envW _).2.1 ["a"] rfl rfl
  · exact (run_validates_arguments envW _).2.2 ["a"] "/d" _ rfl rfl rfl

/-- Claim C9: when the root path of a local entry ends with a path
separator, its destination path is the destination root joined with its
(normalised) relative path; otherwise the basename of the root is
inserted as an extra segment, so the entry lands under
`dest/<basename-of-root>/<relative path>`.  This is the destination path
of lines 196-207, before the template extension is stripped from file
names. -/
theorem mapper_root_separator_semantics (rp : String) (e : LocalEntry) :
    (strEndsWith e.root "/" = true →
        destinationPath rp e = normpath (pjoin rp (normpath e.path)))
    ∧ (strEndsWith e.root "/" = false →
        destinationPath rp e
          = normpath (pjoin (pjoin rp (basename e.root)) (normpath e.path))) := by
  constructor <;> intro h <;> simp [destinationPath, h]

/-- Witness for claim C9, on the examples of the specification: with
root `files/app/` the file `config.yml` maps to
`/opt/app/config.yml`, with root `files/app` it maps to
`/opt/app/app/config.yml`. -/
theorem mapper_root_separator_witness :
    destinationPath "/opt/app"
        { root := "files/app/", path := "config.yml", state := "file", src := none }
      = "/opt/app/config.yml"
    ∧ destinationPath "/opt/app"
        { root := "files/app", path := "config.yml", state := "file", src := none }
      = "/opt/app/app/config.yml" := by
  constructor
  · exact ((mapper_root_separator_semantics "/opt/app" _).1 (by decide)).trans (by decide)
  · exact ((mapper_root_separator_semantics "/opt/app" _).2 (by decide)).trans (by decide)

/-- Claim C10: when `exclusive_ignore` contains an absolute path that is
neither equal to nor under the destination root, the rewrite inside the
delete-set computation raises (the `ValueError` of
`PurePath.relative_to` is not caught), the run ends with that unhandled
exception rather than a classified argument error, and no delete or
create operation has executed. -/
theorem run_raises_on_ignore_outside_root
    (env : Env) (lp : List String) (rp : String) (o g fm dm : Option String)
    (excl : Bool) (ei : Option PyVal) (igs : List PPath) (ig : PPath)
    (hparse : parse_path_list "exclusive_ignore" ei = .ok igs)
    (hig : ig ∈ igs) (habs : ig.isAbs = true)
    (hout : relativeTo ig (parsePath rp) = none) :
    runModel env { src := some lp, dest := some rp, owner := o, group := g
                 , file_mode := fm, directory_mode := dm, exclusive := excl
                 , exclusive_ignore := ei }
      = { outcome := .pathError, deleted := [], created := [] } := by
  have hrw := rewriteIgnore_eq_none rp igs ig hig habs hout
  have hpd : planDelete env lp rp o g fm dm excl igs = none := by
    simp [planDelete, get_entries_to_delete, hrw]
  simp [runModel, hparse, hpd]

/-- Witness for claim C10: with destination root `/opt/app` and the
absolute ignore path `/elsewhere/x`, the run ends in the unhandled
path error with empty operation traces. -/
theorem run_raises_on_ignore_outside_root_witness :
    runModel envW { src := some ["a"], dest := some "/opt/app", owner := none, group := none
                  , file_mode := none, directory_mode := none, exclusive := true
                  , exclusive_ignore := some (.str "/elsewhere/x") }
      = { outcome := .pathError, deleted := [], created := [] } := by
  exact run_raises_on_ignore_outside_root envW ["a"] "/opt/app" none none none none true
    (some (.str "/elsewhere/x")) [parsePath "/elsewhere/x"] (parsePath "/elsewhere/x")
    rfl (by decide) (by decide) (by decide)

end TemplateTree
